import Mathlib

/-!
# Device-map synchronisation and gateway-api helpers

A shallow embedding of

* `pkg/maps/devicesmap/devicesmap.go` (the typed `cilium_devices` map),
* `pkg/datapath/linux/devices_map_sync.go` (the reconciliation loop),
* `operator/pkg/gateway-api/helpers/equal.go` (`ObjectsEqual`),
* `operator/pkg/gateway-api/policychecks/policy_checks.go`
  (`CheckTargetIsExistingService`),

followed by the properties established about them.

Conventions: a Go `error` is an `Option Err` (`none` is `nil`); a Go `byte`,
`uint8`, `uint16`, `uint32` is a `Nat`; a pointer that may be `nil` is an
`Option`; a run-time panic is an explicit outcome.
-/

namespace Cilium

/-- A Go `error` value, identified by its message. -/
abbrev Err := String

/-! ## pkg/maps/devicesmap: key and value records -/

namespace devicesmap

/-- The type `types.MACAddr`, a `[6]byte` array. -/
structure MACAddr where
  bytes : List Nat
  size_eq : bytes.length = 6
deriving DecidableEq

/-- The zero value of `types.MACAddr`. -/
def MACAddr.zero : MACAddr := ⟨[0, 0, 0, 0, 0, 0], rfl⟩

/-- Go's builtin `copy(dst, src)` on byte slices: the first
`min (len dst) (len src)` elements of `dst` are overwritten with those of
`src`; the result is the new content of `dst`. -/
def copy (dst src : List Nat) : List Nat :=
  src.take dst.length ++ dst.drop src.length

/-- The key record: `DeviceKey matches the BPF map key (__u32 ifindex)`. -/
structure DeviceKey where
  IfIndex : Nat
deriving DecidableEq

/-- The value record `DeviceState` with its four blank fields, in declaration
order: `MAC`, `_ uint16`, `L3`, `_ uint8` (pad1), `_ uint16` (pad2),
`_ uint32` (pad3). -/
structure DeviceState where
  MAC : MACAddr
  pad0 : Nat
  L3 : Nat
  pad1 : Nat
  pad2 : Nat
  pad3 : Nat
deriving DecidableEq

/-- The composite literal `DeviceState{}`. -/
def DeviceState.zero : DeviceState :=
  { MAC := MACAddr.zero, pad0 := 0, L3 := 0, pad1 := 0, pad2 := 0, pad3 := 0 }

/-- The function `NewDeviceState(mac net.HardwareAddr) DeviceState`. -/
def NewDeviceState (mac : List Nat) : DeviceState :=
  let state : DeviceState := DeviceState.zero
  let state : DeviceState :=
    if h : mac.length = state.MAC.bytes.length then
      { state with
        MAC := ⟨copy state.MAC.bytes mac, by
          simp only [copy, List.length_append, List.length_take, List.length_drop, h]
          rfl⟩ }
    else state
  let state : DeviceState :=
    if mac.length ≠ 6 then { state with L3 := 1 } else state
  state

/-- The Go types the fields of `DeviceKey` and `DeviceState` are declared
with; `byte` is `uint8`. -/
inductive GoType where
  | uint8
  | uint16
  | uint32
  | array (len : Nat) (elem : GoType)
deriving DecidableEq

/-- The size in bytes of a value of a Go type, as `unsafe.Sizeof` reports it. -/
def GoType.size : GoType → Nat
  | .uint8 => 1
  | .uint16 => 2
  | .uint32 => 4
  | .array len elem => len * elem.size

/-- The alignment in bytes of a Go type, as `unsafe.Alignof` reports it: its
size for an unsigned integer, that of the element for an array. -/
def GoType.align : GoType → Nat
  | .uint8 => 1
  | .uint16 => 2
  | .uint32 => 4
  | .array _ elem => elem.align

/-- The least multiple of `align` that is at least `offset`. -/
def alignUp (offset align : Nat) : Nat :=
  (offset + align - 1) / align * align

/-- The offsets Go gives the fields of a struct, laid out in declaration
order from `offset` on: each field starts at the next multiple of its
alignment after the end of the field before it. -/
def fieldOffsets (offset : Nat) : List GoType → List Nat
  | [] => []
  | field :: fields =>
    alignUp offset field.align :: fieldOffsets (alignUp offset field.align + field.size) fields

/-- The end of the last field of a struct laid out from `offset` on. -/
def fieldsEnd (offset : Nat) : List GoType → Nat
  | [] => offset
  | field :: fields => fieldsEnd (alignUp offset field.align + field.size) fields

/-- The alignment of a struct: the largest alignment among its fields. -/
def structAlign (fields : List GoType) : Nat :=
  fields.foldl (fun align field => max align field.align) 1

/-- The size of a struct, `unsafe.Sizeof`: the end of its last field rounded
up to the alignment of the struct. -/
def Sizeof (fields : List GoType) : Nat :=
  alignUp (fieldsEnd 0 fields) (structAlign fields)

/-- The field types of `DeviceKey`, in declaration order. -/
def DeviceKey.fields : List GoType := [.uint32]

/-- The field types of `DeviceState`, in declaration order: `MAC` (a
`[6]byte`), `_ uint16`, `L3 uint8`, `_ uint8`, `_ uint16`, `_ uint32`. -/
def DeviceState.fields : List GoType :=
  [.array 6 .uint8, .uint16, .uint8, .uint8, .uint16, .uint32]

/-- The fields of `ebpf.MapSpec` that `NewMap` sets to a number or a name. -/
structure MapSpec where
  Name : String
  KeySize : Nat
  ValueSize : Nat
  MaxEntries : Nat
deriving DecidableEq

/-- The constant `mapName`. -/
def mapName : String := "cilium_devices"

/-- The `ebpf.MapSpec` literal in `NewMap`. -/
def NewMap.spec : MapSpec :=
  { Name := mapName
    KeySize := Sizeof DeviceKey.fields
    ValueSize := Sizeof DeviceState.fields
    MaxEntries := 256 }

end devicesmap

/-! ## operator/pkg/gateway-api/helpers: `ObjectsEqual` -/

namespace helpers

/-- The type `schema.GroupVersionKind`; Go compares it field by field. -/
structure GroupVersionKind where
  Group : String
  Version : String
  Kind : String
deriving DecidableEq

/-- What `ObjectsEqual` observes of a `client.Object`: the results of
`GetObjectKind().GroupVersionKind()`, `GetName()`, `GetNamespace()` and
`GetGeneration()` (an `int64`). -/
structure Object where
  GroupVersionKind : GroupVersionKind
  Name : String
  Namespace : String
  Generation : Int
deriving DecidableEq

/-- The error built by `ObjectsEqual` when only the generations differ. -/
def errDifferentGenerations : Err :=
  "Same object, different generations, retry reconciliation"

/-- The function `ObjectsEqual(a, b client.Object) (bool, error)`. -/
def ObjectsEqual (a b : Object) : Bool × Option Err :=
  if a.GroupVersionKind = b.GroupVersionKind ∧
      a.Name = b.Name ∧
      a.Namespace = b.Namespace then
    if a.Generation = b.Generation then
      (true, none)
    else
      (true, some errDifferentGenerations)
  else
    (false, none)

end helpers

/-! ## operator/pkg/gateway-api/policychecks: `CheckTargetIsExistingService` -/

namespace policychecks

/-- The type `gatewayv1.LocalPolicyTargetReferenceWithSectionName`;
`SectionName` is a `*SectionName`, `none` being the nil pointer. -/
structure LocalPolicyTargetReferenceWithSectionName where
  Group : String
  Kind : String
  Name : String
  SectionName : Option String
deriving DecidableEq

/-- The type `types.NamespacedName`. -/
structure NamespacedName where
  Namespace : String
  Name : String
deriving DecidableEq

/-- The `%s` rendering of a `types.NamespacedName`. -/
def NamespacedName.render (n : NamespacedName) : String :=
  n.Namespace ++ "/" ++ n.Name

/-- The type `gatewayv1.ParentReference`, only ever passed through. -/
structure ParentReference where
  Name : String
deriving DecidableEq

/-- The type `metav1.Condition`, restricted to the fields the check sets. -/
structure Condition where
  Type' : String
  Status : String
  Reason : String
  Message : String
deriving DecidableEq

/-- The three ways `input.GetClient().Get(ctx, targetFullName, obj)` can end:
the Service is found (with the names of `obj.Spec.Ports`), the error satisfies
`k8serrors.IsNotFound`, or it is another error. -/
inductive GetResult where
  | found (ports : List String)
  | notFound (err : Err)
  | failed (err : Err)
deriving DecidableEq

/-- What the check reads of its `Input`: `GetNamespace()`, `GetTargetRefs()`
and the client behind `GetClient()`. -/
structure Input where
  Namespace : String
  TargetRefs : List LocalPolicyTargetReferenceWithSectionName
  Get : NamespacedName → GetResult

/-- How a call ends: it returns `(bool, error)` having made the listed
`SetAncestorCondition` calls in order, or it panics. -/
inductive Outcome where
  | returned (ok : Bool) (err : Option Err) (conditions : List (ParentReference × Condition))
  | panicked
deriving DecidableEq

/-- The two conditions every rejecting branch sets, with its message. -/
def rejectConditions (ancestorRef : ParentReference) (message : String) :
    List (ParentReference × Condition) :=
  [(ancestorRef, { Type' := "Accepted", Status := "False", Reason := "Invalid",
                   Message := message }),
   (ancestorRef, { Type' := "ResolvedRefs", Status := "False", Reason := "BackendNotFound",
                   Message := message })]

/-- The `for _, target := range input.GetTargetRefs()` loop of
`CheckTargetIsExistingService` over the target refs still to visit, followed
by the statement after the loop. `IsServiceTargetRef` is the helper of that
name, whose source is not part of this development. The `||` chain is
evaluated left to right, so `*target.SectionName` is dereferenced exactly when
name and namespace match. -/
def checkTargetRefs (IsServiceTargetRef : LocalPolicyTargetReferenceWithSectionName → Bool)
    (input : Input) (ancestorRef : ParentReference) (targetFullName : NamespacedName)
    (sectionName : String) :
    List LocalPolicyTargetReferenceWithSectionName → Outcome
  | [] =>
    .returned false (some ("Could not find a match for target " ++ targetFullName.render)) []
  | target :: rest =>
    if target.Name ≠ targetFullName.Name then
      checkTargetRefs IsServiceTargetRef input ancestorRef targetFullName sectionName rest
    else if input.Namespace ≠ targetFullName.Namespace then
      checkTargetRefs IsServiceTargetRef input ancestorRef targetFullName sectionName rest
    else
      match target.SectionName with
      | none => .panicked
      | some deref =>
        if deref ≠ sectionName then
          checkTargetRefs IsServiceTargetRef input ancestorRef targetFullName sectionName rest
        else if !IsServiceTargetRef target then
          let message := "TargetRef is not a Service " ++ targetFullName.render
          .returned false (some message) (rejectConditions ancestorRef message)
        else
          match input.Get targetFullName with
          | .failed err =>
            .returned false (some ("error while checking Backend Service: " ++ err)) []
          | .notFound _ =>
            let message := "TargetRef does not exist: " ++ targetFullName.render
            .returned false (some message) (rejectConditions ancestorRef message)
          | .found ports =>
            match target.SectionName with
            | some name =>
              if ports.any (fun port => port = name) then
                .returned true none []
              else
                let message :=
                  "Could not find named port " ++ name ++ " on Service " ++ targetFullName.render
                .returned false (some message) (rejectConditions ancestorRef message)
            | none => .returned true none []

/-- The function `CheckTargetIsExistingService(input, ancestorRef,
targetFullName, sectionName) (bool, error)`. -/
def CheckTargetIsExistingService
    (IsServiceTargetRef : LocalPolicyTargetReferenceWithSectionName → Bool)
    (input : Input) (ancestorRef : ParentReference) (targetFullName : NamespacedName)
    (sectionName : String) : Outcome :=
  checkTargetRefs IsServiceTargetRef input ancestorRef targetFullName sectionName input.TargetRefs

end policychecks

/-! ## pkg/maps/devicesmap: the `Map` interface and its implementation -/

namespace devicesmap

/-- The interface `Map`, as the operations of an implementation whose state
has type `σ`. `Upsert` and `Delete` return the new state and the Go `error`;
`Lookup` returns `(*DeviceState, error)`; `IterateWithCallback` returns the
entries it hands to the callback, in order, and its `error`. -/
structure Map (σ : Type) where
  Upsert : σ → Nat → DeviceState → σ × Option Err
  Delete : σ → Nat → σ × Option Err
  Lookup : σ → Nat → Except Err DeviceState
  IterateWithCallback : σ → List (DeviceKey × DeviceState) × Option Err

/-- The error `ebpf.ErrKeyNotExist`. -/
def ErrKeyNotExist : Err := "key does not exist"

/-- Modelled from the spec: the MapWriteError a rejected or over-capacity
write fails with. -/
def MapWriteError : Err := "map write error"

/-- Modelled from the spec: the MapReadError a walk that cannot complete
fails with. -/
def MapReadError : Err := "map read error"

/-- Modelled from the spec: the type `ebpf.Map` of `pkg/ebpf` behind
`devicesMap`, whose source is not part of this development. It is a hash
table holding at most one entry per key and at most `MaxEntries` entries. The
kernel may reject a write (`rejectPut`, `rejectDelete`) and a walk may stop
after `walkLimit` entries. -/
structure EbpfMap where
  entries : AList (fun _ : DeviceKey => DeviceState)
  MaxEntries : Nat
  rejectPut : DeviceKey → Bool
  rejectDelete : DeviceKey → Bool
  walkLimit : Option Nat

/-- Modelled from the spec: `ebpf.Map.Put` "inserts or overwrites the entry";
it "fails with a MapWriteError on capacity exhaustion or kernel-level
rejection". -/
def EbpfMap.Put (m : EbpfMap) (key : DeviceKey) (value : DeviceState) : EbpfMap × Option Err :=
  if m.rejectPut key then
    (m, some MapWriteError)
  else if (m.entries.lookup key).isNone ∧ m.MaxEntries ≤ m.entries.entries.length then
    (m, some MapWriteError)
  else
    ({ m with entries := m.entries.insert key value }, none)

/-- Modelled from the spec: `ebpf.Map.Delete` "removes the entry if present",
"fails with a MapWriteError on kernel-level rejection", and "deleting an absent
key is reported distinctly (NotFound)". -/
def EbpfMap.Delete (m : EbpfMap) (key : DeviceKey) : EbpfMap × Option Err :=
  if m.rejectDelete key then
    (m, some MapWriteError)
  else if (m.entries.lookup key).isNone then
    (m, some ErrKeyNotExist)
  else
    ({ m with entries := m.entries.erase key }, none)

/-- Modelled from the spec: `ebpf.Map.Lookup` is a "point read; fails with
NotFound if absent". -/
def EbpfMap.Lookup (m : EbpfMap) (key : DeviceKey) : Except Err DeviceState :=
  match m.entries.lookup key with
  | some value => .ok value
  | none => .error ErrKeyNotExist

/-- Modelled from the spec: `ebpf.Map.IterateWithCallback` "invokes callback
once per current entry in unspecified order" and "fails with MapReadError if
the underlying walk cannot complete, but partial results already delivered to
the callback remain valid". -/
def EbpfMap.IterateWithCallback (m : EbpfMap) : List (DeviceKey × DeviceState) × Option Err :=
  match m.walkLimit with
  | none => (m.entries.entries.map (fun e => (e.1, e.2)), none)
  | some n => ((m.entries.entries.take n).map (fun e => (e.1, e.2)), some MapReadError)

/-- The method `(m *devicesMap) Upsert(ifindex uint32, state DeviceState) error`. -/
def devicesMap.Upsert (m : EbpfMap) (ifindex : Nat) (state : DeviceState) : EbpfMap × Option Err :=
  let key : DeviceKey := { IfIndex := ifindex }
  m.Put key state

/-- The method `(m *devicesMap) Delete(ifindex uint32) error`. -/
def devicesMap.Delete (m : EbpfMap) (ifindex : Nat) : EbpfMap × Option Err :=
  let key : DeviceKey := { IfIndex := ifindex }
  m.Delete key

/-- The method `(m *devicesMap) Lookup(ifindex uint32) (*DeviceState, error)`. -/
def devicesMap.Lookup (m : EbpfMap) (ifindex : Nat) : Except Err DeviceState :=
  let key : DeviceKey := { IfIndex := ifindex }
  match m.Lookup key with
  | .error err => .error err
  | .ok state => .ok state

/-- The method `(m *devicesMap) IterateWithCallback(cb IterateCallback) error`:
every entry of the underlying walk is passed on to `cb`. -/
def devicesMap.IterateWithCallback (m : EbpfMap) : List (DeviceKey × DeviceState) × Option Err :=
  m.IterateWithCallback

/-- The type `devicesMap` as an implementation of `Map`. -/
def devicesMap.impl : Map EbpfMap :=
  { Upsert := devicesMap.Upsert
    Delete := devicesMap.Delete
    Lookup := devicesMap.Lookup
    IterateWithCallback := devicesMap.IterateWithCallback }

/-- The entry a `devicesMap` holds for an interface index, if any. -/
def devicesMap.content (m : EbpfMap) (ifindex : Nat) : Option DeviceState :=
  m.entries.lookup { IfIndex := ifindex }

/-- A write made on a `Map`. -/
inductive Call where
  | Upsert (ifindex : Nat) (state : DeviceState)
  | Delete (ifindex : Nat)
deriving DecidableEq

/-- A test double: the implementation `m`, which also appends every `Upsert`
and `Delete` call made on it to a journal. -/
def recording {σ : Type} (m : Map σ) : Map (σ × List Call) :=
  { Upsert := fun s ifindex state =>
      (((m.Upsert s.1 ifindex state).1, s.2 ++ [Call.Upsert ifindex state]),
        (m.Upsert s.1 ifindex state).2)
    Delete := fun s ifindex =>
      (((m.Delete s.1 ifindex).1, s.2 ++ [Call.Delete ifindex]), (m.Delete s.1 ifindex).2)
    Lookup := fun s ifindex => m.Lookup s.1 ifindex
    IterateWithCallback := fun s => m.IterateWithCallback s.1 }

/-- What the spec asks of a map store, for an implementation `m` whose state
`s` holds the entries `content s`: a successful `Upsert` sets the entry of its
key and no other, a successful `Delete` removes the entry of its key and no
other, and a successful iteration delivers every entry exactly once. -/
structure LawfulMap {σ : Type} (m : Map σ) (content : σ → Nat → Option DeviceState) : Prop where
  upsert_ok : ∀ s ifindex state s', m.Upsert s ifindex state = (s', none) →
    content s' = Function.update (content s) ifindex (some state)
  delete_ok : ∀ s ifindex s', m.Delete s ifindex = (s', none) →
    content s' = Function.update (content s) ifindex none
  iterate_nodup : ∀ s delivered, m.IterateWithCallback s = (delivered, none) →
    (delivered.map (fun kv => kv.1.IfIndex)).Nodup
  iterate_ok : ∀ s delivered, m.IterateWithCallback s = (delivered, none) →
    ∀ ifindex state, ({ IfIndex := ifindex }, state) ∈ delivered ↔ content s ifindex = some state

end devicesmap

/-! ## pkg/datapath/linux: the reconciliation loop -/

namespace linux
open devicesmap

/-- Modelled from the spec: the type `tables.Device`, whose declaration is not
part of this development, "identified by an interface index (unsigned 32-bit)
and a hardware (link-layer) address of variable byte length". -/
structure Device where
  Index : Nat
  HardwareAddr : List Nat
deriving DecidableEq

/-- The conversion `uint32(x)`. -/
def uint32 (x : Nat) : Nat := x % 4294967296

/-- The type `map[uint32]devicesmap.DeviceState`; `range` visits `entries`. -/
abbrev DesiredState := AList (fun _ : Nat => DeviceState)

/-- The function `desiredState(devices []*tables.Device)`. -/
def desiredState (devices : List Device) : DesiredState :=
  devices.foldl
    (fun desired dev => desired.insert (uint32 dev.Index) (NewDeviceState dev.HardwareAddr))
    ∅

/-- A `p.Logger.Warn` record: the message, `logfields.Error` and, when given,
`logfields.Interface`. -/
structure Warning where
  msg : String
  error : Err
  interface : Option Nat
deriving DecidableEq

/-- The fields of `devicesMapSyncParams` the pass uses that are fixed: the
implementation behind `DeviceMap`. -/
structure devicesMapSyncParams (σ : Type) where
  DeviceMap : Map σ

/-- The mutable state reachable from `devicesMapSyncParams`: the state of
`DeviceMap` and the records written to `Logger`. -/
structure SyncState (σ : Type) where
  DeviceMap : σ
  Logger : List Warning

/-- The body of the `for ifindex, state := range desired` loop of
`upsertDesiredDevices`. -/
def upsertEntry {σ : Type} (p : devicesMapSyncParams σ) (st : SyncState σ)
    (entry : Sigma (fun _ : Nat => DeviceState)) : SyncState σ :=
  match p.DeviceMap.Upsert st.DeviceMap entry.1 entry.2 with
  | (s, some err) =>
    { DeviceMap := s
      Logger := st.Logger ++ [⟨"Failed to upsert device map entry", err, some entry.1⟩] }
  | (s, none) => { DeviceMap := s, Logger := st.Logger }

/-- The order in which one `for ... range` over a Go map visits the entries
of the map. Go does not specify it and it may differ from one loop to the
next: `visit` is any rearrangement of the entries. -/
structure RangeOrder where
  visit : List (Sigma (fun _ : Nat => DeviceState)) → List (Sigma (fun _ : Nat => DeviceState))
  perm : ∀ entries, (visit entries).Perm entries

/-- The function `upsertDesiredDevices(p, desired)`, its `range` over
`desired` visiting the entries in the order `range`. -/
def upsertDesiredDevices {σ : Type} (p : devicesMapSyncParams σ) (range : RangeOrder)
    (desired : DesiredState) (st : SyncState σ) : SyncState σ :=
  (range.visit desired.entries).foldl (upsertEntry p) st

/-- The callback `pruneStaleDevices` passes to `IterateWithCallback`, acting
on the slice `stale`. -/
def staleCallback (desired : DesiredState) (stale : List Nat)
    (kv : DeviceKey × DeviceState) : List Nat :=
  if (desired.lookup kv.1.IfIndex).isSome then stale else stale ++ [kv.1.IfIndex]

/-- The body of the `for _, ifindex := range stale` loop of
`pruneStaleDevices`. -/
def deleteEntry {σ : Type} (p : devicesMapSyncParams σ) (st : SyncState σ)
    (ifindex : Nat) : SyncState σ :=
  match p.DeviceMap.Delete st.DeviceMap ifindex with
  | (s, some err) =>
    { DeviceMap := s
      Logger := st.Logger ++ [⟨"Failed to delete stale device map entry", err, some ifindex⟩] }
  | (s, none) => { DeviceMap := s, Logger := st.Logger }

/-- The function `pruneStaleDevices(p, desired)`. -/
def pruneStaleDevices {σ : Type} (p : devicesMapSyncParams σ) (desired : DesiredState)
    (st : SyncState σ) : SyncState σ :=
  let walk := p.DeviceMap.IterateWithCallback st.DeviceMap
  let stale : List Nat := walk.1.foldl (staleCallback desired) []
  let st : SyncState σ :=
    match walk.2 with
    | some err =>
      { st with Logger := st.Logger ++ [⟨"Failed to iterate device map", err, none⟩] }
    | none => st
  stale.foldl (deleteEntry p) st

/-- One pass of the loop of `syncDevicesMap`, from the snapshot `devices`
returned by `tables.SelectedDevices` up to the `select`; `range` is the order
in which this pass ranges over `desired`. -/
def syncPass {σ : Type} (p : devicesMapSyncParams σ) (range : RangeOrder)
    (devices : List Device) (st : SyncState σ) : SyncState σ :=
  let desired := desiredState devices
  let st := upsertDesiredDevices p range desired st
  pruneStaleDevices p desired st

/-- The case of the `select` that fires: the watch channel, the ticker, or
`ctx.Done()` with the value `ctx.Err()` then has. -/
inductive WaitEvent where
  | watch
  | tick
  | done (ctxErr : Err)
deriving DecidableEq

/-- What the surroundings contribute to one iteration of the loop: the device
snapshot, the order in which the map `desired` is ranged over, the `select`
case that fires and the result of `limiter.Wait(ctx)`. -/
structure Round where
  devices : List Device
  range : RangeOrder
  event : WaitEvent
  limiterWait : Option Err

/-- The function `syncDevicesMap(p, ctx)` run against the rounds its
surroundings provide. The result is `some err` when the loop returns `err`
within these rounds and `none` when it is still running after them. -/
def syncDevicesMap {σ : Type} (p : devicesMapSyncParams σ) :
    List Round → SyncState σ → Option Err × SyncState σ
  | [], st => (none, st)
  | round :: rounds, st =>
    let st := syncPass p round.range round.devices st
    match round.event with
    | .done ctxErr => (some ctxErr, st)
    | _ =>
      match round.limiterWait with
      | some err => (some err, st)
      | none => syncDevicesMap p rounds st

/-! ### Concrete inputs -/

/-- A range that visits the entries as `desiredState` holds them, the latest
insertion first. -/
def RangeOrder.latestFirst : RangeOrder :=
  { visit := fun entries => entries
    perm := fun entries => List.Perm.refl entries }

/-- A range that visits the entries in the order of their insertion. -/
def RangeOrder.earliestFirst : RangeOrder :=
  { visit := fun entries => entries.reverse
    perm := fun entries => List.reverse_perm entries }

/-- A freshly created `cilium_devices` map: no entry, `MaxEntries: 256`, no
rejection and complete walks. -/
def emptyDevicesMap : EbpfMap :=
  { entries := ∅
    MaxEntries := 256
    rejectPut := fun _ => false
    rejectDelete := fun _ => false
    walkLimit := none }

/-- A map created with room for a single entry. -/
def tinyDevicesMap : EbpfMap :=
  { emptyDevicesMap with MaxEntries := 1 }

/-- The parameters of a sync over the `devicesMap` implementation. -/
def devicesMapParams : devicesMapSyncParams EbpfMap :=
  { DeviceMap := devicesMap.impl }

/-- The first device table of the spec's scenario: index 1 with MAC
00:11:22:33:44:55 and index 2 with MAC de:ad:be:ef:00:01. -/
def scenarioDevices : List Device :=
  [⟨1, [0x00, 0x11, 0x22, 0x33, 0x44, 0x55]⟩, ⟨2, [0xde, 0xad, 0xbe, 0xef, 0x00, 0x01]⟩]

/-- The second device table of the scenario: index 2 gone, index 3 added
with the 3-byte address aa:bb:cc. -/
def scenarioDevicesLater : List Device :=
  [⟨1, [0x00, 0x11, 0x22, 0x33, 0x44, 0x55]⟩, ⟨3, [0xaa, 0xbb, 0xcc]⟩]

/-- The state the first pass of the scenario leaves behind when its range
visits the entries in the order `range`. -/
def scenarioAfterFirstPass (range : RangeOrder) : SyncState EbpfMap :=
  syncPass devicesMapParams range scenarioDevices { DeviceMap := emptyDevicesMap, Logger := [] }

/-- A map on which every write is rejected and every walk stops at once. -/
def rejectingDevicesMap : EbpfMap :=
  { emptyDevicesMap with
    rejectPut := fun _ => true
    rejectDelete := fun _ => true
    walkLimit := some 0 }

/-- Three iterations of the loop: a device-table change, a tick of the
ticker, then cancellation of the context, whose `ctx.Err()` is
`context.Canceled`. -/
def scenarioRounds : List Round :=
  [{ devices := scenarioDevices, range := RangeOrder.latestFirst,
     event := .watch, limiterWait := none },
   { devices := scenarioDevicesLater, range := RangeOrder.earliestFirst,
     event := .tick, limiterWait := none },
   { devices := scenarioDevicesLater, range := RangeOrder.latestFirst,
     event := .done "context canceled", limiterWait := none }]

end linux

/-! # Properties -/

/-! ## `NewDeviceState` -/

namespace devicesmap

theorem copy_zero_of_length_six (mac : List Nat) (h : mac.length = 6) :
    copy MACAddr.zero.bytes mac = mac := by
  have h1 : MACAddr.zero.bytes.length = 6 := rfl
  simp only [copy, h1, h]
  rw [List.take_of_length_le (le_of_eq h)]
  simp [MACAddr.zero]

/-- Claim C1: for every hardware address of length exactly 6, `NewDeviceState`
returns a state whose `MAC` holds the 6 input bytes in the same order and
whose `L3` flag is 0. -/
theorem NewDeviceState_ethernet (mac : List Nat) (h : mac.length = 6) :
    (NewDeviceState mac).MAC.bytes = mac ∧ (NewDeviceState mac).L3 = 0 := by
  have h1 : mac.length = DeviceState.zero.MAC.bytes.length := by rw [h]; rfl
  constructor
  · simp only [NewDeviceState, dif_pos h1, h, ne_eq, not_true_eq_false, if_false]
    exact copy_zero_of_length_six mac h
  · simp only [NewDeviceState, dif_pos h1, h, ne_eq, not_true_eq_false, if_false]
    rfl

/-- The test vector of `TestNewDeviceState`, "mac copied and l3 unset for valid
length". -/
theorem NewDeviceState_ethernet_witness :
    [0x01, 0x02, 0x03, 0x04, 0x05, 0x06].length = 6 ∧
    (NewDeviceState [0x01, 0x02, 0x03, 0x04, 0x05, 0x06]).MAC.bytes
      = [0x01, 0x02, 0x03, 0x04, 0x05, 0x06] ∧
    (NewDeviceState [0x01, 0x02, 0x03, 0x04, 0x05, 0x06]).L3 = 0 :=
  ⟨rfl, NewDeviceState_ethernet [0x01, 0x02, 0x03, 0x04, 0x05, 0x06] rfl⟩

/-- Claim C2: for every hardware address whose length is not 6, the empty
address and longer addresses included, `NewDeviceState` returns a state whose
`MAC` is all zero bytes and whose `L3` flag is 1. `NewDeviceState` is a total
function: it returns a state for every input. -/
theorem NewDeviceState_not_ethernet (mac : List Nat) (h : mac.length ≠ 6) :
    (NewDeviceState mac).MAC = MACAddr.zero ∧
    (NewDeviceState mac).MAC.bytes = [0, 0, 0, 0, 0, 0] ∧
    (NewDeviceState mac).L3 = 1 := by
  have h1 : ¬ mac.length = DeviceState.zero.MAC.bytes.length := by
    intro h2; exact h h2
  have key : NewDeviceState mac = { DeviceState.zero with L3 := 1 } := by
    simp only [NewDeviceState, dif_neg h1, h, ne_eq, not_false_eq_true, if_true]
  rw [key]
  exact ⟨rfl, rfl, rfl⟩

/-- The test vector of `TestNewDeviceState`, "l3 set when mac length invalid". -/
theorem NewDeviceState_not_ethernet_witness :
    [0xaa, 0xbb, 0xcc, 0xdd, 0xee].length ≠ 6 ∧
    (NewDeviceState [0xaa, 0xbb, 0xcc, 0xdd, 0xee]).MAC = MACAddr.zero ∧
    (NewDeviceState [0xaa, 0xbb, 0xcc, 0xdd, 0xee]).MAC.bytes = [0, 0, 0, 0, 0, 0] ∧
    (NewDeviceState [0xaa, 0xbb, 0xcc, 0xdd, 0xee]).L3 = 1 :=
  ⟨by decide, NewDeviceState_not_ethernet [0xaa, 0xbb, 0xcc, 0xdd, 0xee] (by decide)⟩

/-- The blank fields of a state built by `NewDeviceState` are zero. -/
theorem NewDeviceState_padding (mac : List Nat) :
    (NewDeviceState mac).pad0 = 0 ∧ (NewDeviceState mac).pad1 = 0 ∧
    (NewDeviceState mac).pad2 = 0 ∧ (NewDeviceState mac).pad3 = 0 := by
  unfold NewDeviceState
  simp only
  split_ifs <;> exact ⟨rfl, rfl, rfl, rfl⟩

/-- Claim C6 (binary layout): under Go's size and alignment rules `DeviceKey`
occupies exactly 4 bytes, its one field at offset 0, with no padding;
`DeviceState` occupies exactly 16 bytes, its fields being, in order, the 6
bytes of the hardware address at offset 0, 2 bytes of padding at offset 6,
the 1-byte L3 flag at offset 8, 1 byte of padding at offset 9, 2 bytes of
padding at offset 10 and 4 bytes of padding at offset 12, with no gap between
them; these are the `KeySize` and `ValueSize` of the map `NewMap` creates; and
every padding field of a value built by `NewDeviceState` is zero. -/
theorem DeviceState_layout :
    Sizeof DeviceKey.fields = 4 ∧
    fieldOffsets 0 DeviceKey.fields = [0] ∧
    (DeviceKey.fields.map GoType.size).sum = Sizeof DeviceKey.fields ∧
    Sizeof DeviceState.fields = 16 ∧
    fieldOffsets 0 DeviceState.fields = [0, 6, 8, 9, 10, 12] ∧
    DeviceState.fields.map GoType.size = [6, 2, 1, 1, 2, 4] ∧
    (DeviceState.fields.map GoType.size).sum = Sizeof DeviceState.fields ∧
    NewMap.spec.KeySize = 4 ∧
    NewMap.spec.ValueSize = 16 ∧
    (∀ mac : List Nat,
      (NewDeviceState mac).pad0 = 0 ∧ (NewDeviceState mac).pad1 = 0 ∧
      (NewDeviceState mac).pad2 = 0 ∧ (NewDeviceState mac).pad3 = 0) := by
  refine ⟨by decide, by decide, by decide, by decide, by decide, by decide, by decide,
    by decide, by decide, ?_⟩
  intro mac
  exact NewDeviceState_padding mac

/-! ## The `devicesMap` implementation over the modelled kernel map -/

theorem DeviceKey_ext (a b : DeviceKey) (h : a.IfIndex = b.IfIndex) : a = b := by
  cases a; cases b; simp_all

theorem devicesMap_Upsert_ok (m m' : EbpfMap) (i : Nat) (s : DeviceState)
    (h : devicesMap.Upsert m i s = (m', none)) :
    m'.entries = m.entries.insert { IfIndex := i } s := by
  simp only [devicesMap.Upsert, EbpfMap.Put] at h
  split_ifs at h
  · simp at h
  · simp at h
  · simp only [Prod.mk.injEq, and_true] at h
    rw [← h]

theorem devicesMap_Delete_ok (m m' : EbpfMap) (i : Nat)
    (h : devicesMap.Delete m i = (m', none)) :
    m'.entries = m.entries.erase { IfIndex := i } := by
  simp only [devicesMap.Delete, EbpfMap.Delete] at h
  split_ifs at h
  · simp at h
  · simp at h
  · simp only [Prod.mk.injEq, and_true] at h
    rw [← h]

theorem devicesMap_Lookup_eq (m : EbpfMap) (i : Nat) :
    devicesMap.Lookup m i =
      match devicesMap.content m i with
      | some state => .ok state
      | none => .error ErrKeyNotExist := by
  simp only [devicesMap.Lookup, EbpfMap.Lookup, devicesMap.content]
  cases m.entries.lookup { IfIndex := i } <;> rfl

/-- The `devicesMap` implementation meets the laws of a map store. -/
theorem devicesMap_lawful : LawfulMap devicesMap.impl devicesMap.content where
  upsert_ok := by
    intro s i v s' h
    have h' := devicesMap_Upsert_ok s s' i v h
    funext k
    simp only [devicesMap.content, h']
    by_cases hk : k = i
    · subst hk
      simp [AList.lookup_insert]
    · have hne : ({ IfIndex := k } : DeviceKey) ≠ { IfIndex := i } := by
        intro hc; exact hk (congrArg DeviceKey.IfIndex hc)
      rw [AList.lookup_insert_ne hne, Function.update_noteq hk]
      rfl
  delete_ok := by
    intro s i s' h
    have h' := devicesMap_Delete_ok s s' i h
    funext k
    simp only [devicesMap.content, h']
    by_cases hk : k = i
    · subst hk
      simp [AList.lookup_erase]
    · have hne : ({ IfIndex := k } : DeviceKey) ≠ { IfIndex := i } := by
        intro hc; exact hk (congrArg DeviceKey.IfIndex hc)
      rw [AList.lookup_erase_ne hne, Function.update_noteq hk]
      rfl
  iterate_nodup := by
    intro s delivered h
    simp only [devicesMap.impl, devicesMap.IterateWithCallback, EbpfMap.IterateWithCallback] at h
    split at h
    · simp only [Prod.mk.injEq, and_true] at h
      subst h
      rw [List.map_map]
      have hk : s.entries.keys.Nodup := s.entries.keys_nodup
      have hinj : Function.Injective DeviceKey.IfIndex :=
        fun a b hab => DeviceKey_ext a b hab
      have := List.Nodup.map hinj hk
      simpa [AList.keys, List.keys, List.map_map, Function.comp] using this
    · simp at h
  iterate_ok := by
    intro s delivered h i v
    simp only [devicesMap.impl, devicesMap.IterateWithCallback, EbpfMap.IterateWithCallback] at h
    split at h
    · simp only [Prod.mk.injEq, and_true] at h
      subst h
      simp only [devicesMap.content]
      rw [← Option.mem_def, AList.mem_lookup_iff]
      simp only [List.mem_map, Prod.mk.injEq]
      constructor
      · rintro ⟨⟨k, w⟩, hmem, hk, hw⟩
        simp only at hk hw
        subst hk hw
        exact hmem
      · intro hmem
        exact ⟨⟨{ IfIndex := i }, v⟩, hmem, rfl, rfl⟩
    · simp at h

/-- Claim C7: after a successful `Upsert(i, s)`, `Lookup(i)` succeeds and
returns `s`; after a successful `Delete(i)`, `Lookup(i)` fails with
`ErrKeyNotExist`; and the three methods address the entry through the same key
`DeviceKey{IfIndex: i}` of the underlying map. -/
theorem devicesMap_round_trip (m : EbpfMap) (i : Nat) (s : DeviceState) :
    (∀ m', devicesMap.Upsert m i s = (m', none) → devicesMap.Lookup m' i = .ok s) ∧
    (∀ m', devicesMap.Delete m i = (m', none) →
      devicesMap.Lookup m' i = .error ErrKeyNotExist) ∧
    devicesMap.Upsert m i s = m.Put { IfIndex := i } s ∧
    devicesMap.Delete m i = m.Delete { IfIndex := i } ∧
    devicesMap.Lookup m i = m.Lookup { IfIndex := i } := by
  refine ⟨?_, ?_, rfl, rfl, ?_⟩
  · intro m' h
    rw [devicesMap_Lookup_eq, devicesMap_lawful.upsert_ok m i s m' h]
    simp
  · intro m' h
    rw [devicesMap_Lookup_eq, devicesMap_lawful.delete_ok m i m' h]
    simp
  · simp only [devicesMap.Lookup]
    cases m.Lookup { IfIndex := i } <;> rfl

/-- The calls of `TestPrivilegedDevicesMap` on a fresh map: upsert 1 and 2,
look up 1, delete 2, look up 2. -/
theorem devicesMap_round_trip_witness :
    devicesMap.Lookup
        (devicesMap.Upsert linux.emptyDevicesMap 1
          (NewDeviceState [0x00, 0x11, 0x22, 0x33, 0x44, 0x55])).1 1
      = .ok (NewDeviceState [0x00, 0x11, 0x22, 0x33, 0x44, 0x55]) ∧
    devicesMap.Lookup
        (devicesMap.Delete
          (devicesMap.Upsert
            (devicesMap.Upsert linux.emptyDevicesMap 1
              (NewDeviceState [0x00, 0x11, 0x22, 0x33, 0x44, 0x55])).1 2
            (NewDeviceState [0xde, 0xad, 0xbe, 0xef, 0x00, 0x01])).1 2).1 2
      = .error ErrKeyNotExist :=
  ⟨(devicesMap_round_trip linux.emptyDevicesMap 1
      (NewDeviceState [0x00, 0x11, 0x22, 0x33, 0x44, 0x55])).1 _ rfl,
    (devicesMap_round_trip
      (devicesMap.Upsert
        (devicesMap.Upsert linux.emptyDevicesMap 1
          (NewDeviceState [0x00, 0x11, 0x22, 0x33, 0x44, 0x55])).1 2
        (NewDeviceState [0xde, 0xad, 0xbe, 0xef, 0x00, 0x01])).1 2
      DeviceState.zero).2.1 _ rfl⟩

end devicesmap

/-! ## The reconciliation pass -/

namespace linux
open devicesmap

/-! ### The log only grows -/

theorem upsertEntry_Logger_le {σ : Type} (p : devicesMapSyncParams σ) (st : SyncState σ)
    (e : Sigma (fun _ : Nat => DeviceState)) :
    st.Logger.length ≤ (upsertEntry p st e).Logger.length := by
  unfold upsertEntry
  split <;> simp

theorem deleteEntry_Logger_le {σ : Type} (p : devicesMapSyncParams σ) (st : SyncState σ)
    (k : Nat) : st.Logger.length ≤ (deleteEntry p st k).Logger.length := by
  unfold deleteEntry
  split <;> simp

theorem foldl_upsertEntry_Logger_le {σ : Type} (p : devicesMapSyncParams σ)
    (l : List (Sigma (fun _ : Nat => DeviceState))) :
    ∀ st : SyncState σ, st.Logger.length ≤ (l.foldl (upsertEntry p) st).Logger.length := by
  induction l with
  | nil => intro st; exact le_refl _
  | cons e t ih =>
    intro st
    exact le_trans (upsertEntry_Logger_le p st e) (ih (upsertEntry p st e))

theorem foldl_deleteEntry_Logger_le {σ : Type} (p : devicesMapSyncParams σ) (l : List Nat) :
    ∀ st : SyncState σ, st.Logger.length ≤ (l.foldl (deleteEntry p) st).Logger.length := by
  induction l with
  | nil => intro st; exact le_refl _
  | cons e t ih =>
    intro st
    exact le_trans (deleteEntry_Logger_le p st e) (ih (deleteEntry p st e))

/-! ### A step that logs nothing has succeeded -/

theorem upsertEntry_quiet {σ : Type} (p : devicesMapSyncParams σ) (st : SyncState σ)
    (e : Sigma (fun _ : Nat => DeviceState))
    (h : (upsertEntry p st e).Logger.length ≤ st.Logger.length) :
    p.DeviceMap.Upsert st.DeviceMap e.1 e.2 = ((upsertEntry p st e).DeviceMap, none) ∧
    (upsertEntry p st e).Logger = st.Logger := by
  unfold upsertEntry at h ⊢
  split at h
  · simp at h
  · rename_i s heq
    simp [heq]

theorem deleteEntry_quiet {σ : Type} (p : devicesMapSyncParams σ) (st : SyncState σ)
    (k : Nat) (h : (deleteEntry p st k).Logger.length ≤ st.Logger.length) :
    p.DeviceMap.Delete st.DeviceMap k = ((deleteEntry p st k).DeviceMap, none) ∧
    (deleteEntry p st k).Logger = st.Logger := by
  unfold deleteEntry at h ⊢
  split at h
  · simp at h
  · rename_i s heq
    simp [heq]

/-- A run of upserts that logs nothing sets each entry in turn. -/
theorem foldl_upsertEntry_quiet {σ : Type} (p : devicesMapSyncParams σ)
    (content : σ → Nat → Option DeviceState) (hp : LawfulMap p.DeviceMap content)
    (l : List (Sigma (fun _ : Nat => DeviceState))) :
    ∀ st : SyncState σ, (l.foldl (upsertEntry p) st).Logger.length ≤ st.Logger.length →
      content (l.foldl (upsertEntry p) st).DeviceMap =
          l.foldl (fun (c : Nat → Option DeviceState) (e : Sigma (fun _ : Nat => DeviceState)) =>
            Function.update c e.1 (some e.2)) (content st.DeviceMap) ∧
        (l.foldl (upsertEntry p) st).Logger = st.Logger := by
  induction l with
  | nil => intro st _; exact ⟨rfl, rfl⟩
  | cons e t ih =>
    intro st h
    simp only [List.foldl_cons] at h ⊢
    have h1 : (upsertEntry p st e).Logger.length ≤ st.Logger.length :=
      le_trans (foldl_upsertEntry_Logger_le p t (upsertEntry p st e)) h
    obtain ⟨hcall, hlog⟩ := upsertEntry_quiet p st e h1
    have h2 : (t.foldl (upsertEntry p) (upsertEntry p st e)).Logger.length
        ≤ (upsertEntry p st e).Logger.length := by rw [hlog]; exact h
    obtain ⟨hc, hl⟩ := ih (upsertEntry p st e) h2
    rw [hc, hl, hlog, hp.upsert_ok _ _ _ _ hcall]
    exact ⟨rfl, rfl⟩

/-- A run of deletes that logs nothing removes each key in turn. -/
theorem foldl_deleteEntry_quiet {σ : Type} (p : devicesMapSyncParams σ)
    (content : σ → Nat → Option DeviceState) (hp : LawfulMap p.DeviceMap content)
    (l : List Nat) :
    ∀ st : SyncState σ, (l.foldl (deleteEntry p) st).Logger.length ≤ st.Logger.length →
      content (l.foldl (deleteEntry p) st).DeviceMap =
          l.foldl (fun (c : Nat → Option DeviceState) (k : Nat) => Function.update c k none)
            (content st.DeviceMap) ∧
        (l.foldl (deleteEntry p) st).Logger = st.Logger := by
  induction l with
  | nil => intro st _; exact ⟨rfl, rfl⟩
  | cons e t ih =>
    intro st h
    simp only [List.foldl_cons] at h ⊢
    have h1 : (deleteEntry p st e).Logger.length ≤ st.Logger.length :=
      le_trans (foldl_deleteEntry_Logger_le p t (deleteEntry p st e)) h
    obtain ⟨hcall, hlog⟩ := deleteEntry_quiet p st e h1
    have h2 : (t.foldl (deleteEntry p) (deleteEntry p st e)).Logger.length
        ≤ (deleteEntry p st e).Logger.length := by rw [hlog]; exact h
    obtain ⟨hc, hl⟩ := ih (deleteEntry p st e) h2
    rw [hc, hl, hlog, hp.delete_ok _ _ _ hcall]
    exact ⟨rfl, rfl⟩

/-! ### What the folds of updates compute -/

theorem foldl_update_some (l : List (Sigma (fun _ : Nat => DeviceState))) :
    ∀ (c : Nat → Option DeviceState), l.NodupKeys → ∀ k,
      (l.foldl (fun (c : Nat → Option DeviceState) (e : Sigma (fun _ : Nat => DeviceState)) =>
          Function.update c e.1 (some e.2)) c) k =
        match l.dlookup k with
        | some v => some v
        | none => c k := by
  induction l with
  | nil => intro c _ k; rfl
  | cons e t ih =>
    intro c hnd k
    obtain ⟨hnot, ht⟩ := List.nodupKeys_cons.mp hnd
    simp only [List.foldl_cons]
    rw [ih _ ht k]
    by_cases hk : k = e.1
    · subst hk
      have hnone : t.dlookup e.1 = none := List.dlookup_eq_none.mpr hnot
      obtain ⟨a, b⟩ := e
      rw [hnone, List.dlookup_cons_eq]
      simp
    · rw [List.dlookup_cons_ne t e hk]
      cases t.dlookup k with
      | some v => rfl
      | none => simp [Function.update_noteq hk]

theorem foldl_update_none (l : List Nat) :
    ∀ (c : Nat → Option DeviceState) k,
      (l.foldl (fun (c : Nat → Option DeviceState) (k : Nat) => Function.update c k none) c) k =
        if k ∈ l then none else c k := by
  induction l with
  | nil => intro c k; simp
  | cons e t ih =>
    intro c k
    simp only [List.foldl_cons]
    rw [ih]
    by_cases hk : k = e
    · subst hk
      simp
    · by_cases ht : k ∈ t
      · simp [ht]
      · simp [ht, hk, Function.update_noteq hk]

/-- The slice `stale` after the walk: the delivered keys that `desired` lacks,
in delivery order. -/
theorem foldl_staleCallback (desired : DesiredState) (delivered : List (DeviceKey × DeviceState)) :
    ∀ acc : List Nat, delivered.foldl (staleCallback desired) acc =
      acc ++ (delivered.map (fun kv => kv.1.IfIndex)).filter
        (fun k => (desired.lookup k).isNone) := by
  induction delivered with
  | nil => intro acc; simp
  | cons kv t ih =>
    intro acc
    simp only [List.foldl_cons, List.map_cons]
    rw [ih]
    unfold staleCallback
    rcases hl : desired.lookup kv.1.IfIndex with _ | v
    · simp [hl, List.filter_cons]
    · simp [hl, List.filter_cons]

/-! ### `pruneStaleDevices` -/

/-- The keys `pruneStaleDevices` collects from the entries a walk delivers. -/
theorem stale_eq (desired : DesiredState) (delivered : List (DeviceKey × DeviceState)) :
    delivered.foldl (staleCallback desired) [] =
      (delivered.map (fun kv => kv.1.IfIndex)).filter (fun k => (desired.lookup k).isNone) := by
  rw [foldl_staleCallback]; rfl

theorem pruneStaleDevices_of_walk_ok {σ : Type} (p : devicesMapSyncParams σ)
    (desired : DesiredState) (st : SyncState σ) (delivered : List (DeviceKey × DeviceState))
    (hw : p.DeviceMap.IterateWithCallback st.DeviceMap = (delivered, none)) :
    pruneStaleDevices p desired st =
      ((delivered.map (fun kv => kv.1.IfIndex)).filter
        (fun k => (desired.lookup k).isNone)).foldl (deleteEntry p) st := by
  simp only [pruneStaleDevices, hw, stale_eq]

theorem pruneStaleDevices_of_walk_err {σ : Type} (p : devicesMapSyncParams σ)
    (desired : DesiredState) (st : SyncState σ) (delivered : List (DeviceKey × DeviceState))
    (err : Err) (hw : p.DeviceMap.IterateWithCallback st.DeviceMap = (delivered, some err)) :
    pruneStaleDevices p desired st =
      ((delivered.map (fun kv => kv.1.IfIndex)).filter
        (fun k => (desired.lookup k).isNone)).foldl (deleteEntry p)
        { st with Logger := st.Logger ++ [⟨"Failed to iterate device map", err, none⟩] } := by
  simp only [pruneStaleDevices, hw, stale_eq]

theorem pruneStaleDevices_Logger_le {σ : Type} (p : devicesMapSyncParams σ)
    (desired : DesiredState) (st : SyncState σ) :
    st.Logger.length ≤ (pruneStaleDevices p desired st).Logger.length := by
  rcases hw : p.DeviceMap.IterateWithCallback st.DeviceMap with ⟨delivered, _ | err⟩
  · rw [pruneStaleDevices_of_walk_ok p desired st delivered hw]
    exact foldl_deleteEntry_Logger_le p _ st
  · rw [pruneStaleDevices_of_walk_err p desired st delivered err hw]
    refine le_trans ?_ (foldl_deleteEntry_Logger_le p _ _)
    simp

/-- A prune that logs nothing had a complete walk and removes exactly the
entries whose key `desired` lacks. -/
theorem pruneStaleDevices_quiet {σ : Type} (p : devicesMapSyncParams σ)
    (content : σ → Nat → Option DeviceState) (hp : LawfulMap p.DeviceMap content)
    (desired : DesiredState) (st : SyncState σ)
    (h : (pruneStaleDevices p desired st).Logger.length ≤ st.Logger.length) :
    (∀ k, content (pruneStaleDevices p desired st).DeviceMap k =
        if (desired.lookup k).isNone then none else content st.DeviceMap k) ∧
      (pruneStaleDevices p desired st).Logger = st.Logger := by
  rcases hw : p.DeviceMap.IterateWithCallback st.DeviceMap with ⟨delivered, _ | err⟩
  · rw [pruneStaleDevices_of_walk_ok p desired st delivered hw] at h ⊢
    obtain ⟨hc, hl⟩ := foldl_deleteEntry_quiet p content hp _ st h
    refine ⟨?_, hl⟩
    intro k
    rw [hc, foldl_update_none]
    rcases hd : desired.lookup k with _ | v
    · simp only [List.mem_filter, List.mem_map, hd, Option.isNone_none, and_true, if_true]
      split_ifs with hmem
      · rfl
      · rcases hck : content st.DeviceMap k with _ | w
        · rfl
        · exfalso
          apply hmem
          exact ⟨({ IfIndex := k }, w), (hp.iterate_ok st.DeviceMap delivered hw k w).mpr hck, rfl⟩
    · simp [List.mem_filter, hd]
  · exfalso
    rw [pruneStaleDevices_of_walk_err p desired st delivered err hw] at h
    have h1 := foldl_deleteEntry_Logger_le p
      ((delivered.map (fun kv => kv.1.IfIndex)).filter (fun k => (desired.lookup k).isNone))
      { st with Logger := st.Logger ++ [⟨"Failed to iterate device map", err, none⟩] }
    have h2 := le_trans h1 h
    simp at h2

/-! ### `desiredState` -/

theorem foldl_insert_lookup (D : List Device) :
    ∀ (acc : DesiredState) (k : Nat) (v : DeviceState),
      (D.foldl (fun (desired : DesiredState) (dev : Device) =>
          desired.insert (uint32 dev.Index) (NewDeviceState dev.HardwareAddr)) acc).lookup k
        = some v →
      (∃ d ∈ D, uint32 d.Index = k ∧ v = NewDeviceState d.HardwareAddr) ∨
        acc.lookup k = some v := by
  induction D with
  | nil => intro acc k v h; exact Or.inr h
  | cons d t ih =>
    intro acc k v h
    simp only [List.foldl_cons] at h
    rcases ih _ k v h with ⟨d', hd', hk, hv⟩ | hacc
    · exact Or.inl ⟨d', List.mem_cons_of_mem _ hd', hk, hv⟩
    · by_cases hk : k = uint32 d.Index
      · subst hk
        rw [AList.lookup_insert] at hacc
        exact Or.inl ⟨d, List.mem_cons_self _ _, rfl, (Option.some.inj hacc).symm⟩
      · rw [AList.lookup_insert_ne hk] at hacc
        exact Or.inr hacc

theorem foldl_insert_isSome (D : List Device) :
    ∀ (acc : DesiredState) (k : Nat),
      ((∃ d ∈ D, uint32 d.Index = k) ∨ (acc.lookup k).isSome) →
      ((D.foldl (fun (desired : DesiredState) (dev : Device) =>
          desired.insert (uint32 dev.Index) (NewDeviceState dev.HardwareAddr)) acc).lookup
        k).isSome := by
  induction D with
  | nil =>
    intro acc k h
    rcases h with ⟨d, hd, _⟩ | h
    · cases hd
    · exact h
  | cons d t ih =>
    intro acc k h
    simp only [List.foldl_cons]
    apply ih
    rcases h with ⟨d', hd', hk⟩ | h
    · rcases List.mem_cons.mp hd' with rfl | hmem
      · right
        rw [← hk, AList.lookup_insert]
        rfl
      · exact Or.inl ⟨d', hmem, hk⟩
    · right
      by_cases hk : k = uint32 d.Index
      · rw [hk, AList.lookup_insert]
        rfl
      · rw [AList.lookup_insert_ne hk]
        exact h

theorem foldl_insert_lookup_last (D : List Device) :
    ∀ (acc : DesiredState) (k : Nat),
      (D.foldl (fun (desired : DesiredState) (dev : Device) =>
          desired.insert (uint32 dev.Index) (NewDeviceState dev.HardwareAddr)) acc).lookup k =
        match D.reverse.find? (fun d => decide (uint32 d.Index = k)) with
        | some d => some (NewDeviceState d.HardwareAddr)
        | none => acc.lookup k := by
  induction D with
  | nil => intro acc k; rfl
  | cons d t ih =>
    intro acc k
    simp only [List.foldl_cons, List.reverse_cons, List.find?_append]
    rw [ih]
    split
    · rename_i d' ht
      rw [ht]
      rfl
    · rename_i ht
      rw [ht]
      by_cases hk : uint32 d.Index = k
      · subst hk
        simp [List.find?_cons, AList.lookup_insert]
      · have hk' : k ≠ uint32 d.Index := fun h => hk h.symm
        simp [List.find?_cons, hk, AList.lookup_insert_ne hk']

/-- The entry `desiredState D` holds for a key is that of the last device of
`D` with that index. -/
theorem desiredState_lookup_last (D : List Device) (k : Nat) :
    (desiredState D).lookup k =
      (D.reverse.find? (fun d => decide (uint32 d.Index = k))).map
        (fun d => NewDeviceState d.HardwareAddr) := by
  unfold desiredState
  rw [foldl_insert_lookup_last]
  cases D.reverse.find? (fun d => decide (uint32 d.Index = k)) with
  | none => simp [AList.lookup_empty]
  | some d => rfl

/-- Every entry of `desiredState D` comes from a device of `D`. -/
theorem desiredState_lookup (D : List Device) (k : Nat) (v : DeviceState)
    (h : (desiredState D).lookup k = some v) :
    ∃ d ∈ D, uint32 d.Index = k ∧ v = NewDeviceState d.HardwareAddr := by
  rcases foldl_insert_lookup D ∅ k v h with hd | hempty
  · exact hd
  · rw [AList.lookup_empty] at hempty
    cases hempty

/-- The keys of `desiredState D` are the interface indices of `D`. -/
theorem desiredState_isSome (D : List Device) (k : Nat) :
    ((desiredState D).lookup k).isSome ↔ ∃ d ∈ D, uint32 d.Index = k := by
  constructor
  · intro h
    obtain ⟨v, hv⟩ := Option.isSome_iff_exists.mp h
    obtain ⟨d, hd, hk, _⟩ := desiredState_lookup D k v hv
    exact ⟨d, hd, hk⟩
  · intro h
    exact foldl_insert_isSome D ∅ k (Or.inl h)

/-! ### Convergence -/

theorem uint32_of_lt (x : Nat) (h : x < 4294967296) : uint32 x = x :=
  Nat.mod_eq_of_lt h

/-- A pass that logs nothing leaves the map holding exactly `desiredState`,
whatever the order of its range. -/
theorem syncPass_content {σ : Type} (p : devicesMapSyncParams σ)
    (content : σ → Nat → Option DeviceState) (hp : LawfulMap p.DeviceMap content)
    (range : RangeOrder) (D : List Device) (st : SyncState σ)
    (hquiet : (syncPass p range D st).Logger = st.Logger) (k : Nat) :
    content (syncPass p range D st).DeviceMap k = (desiredState D).lookup k := by
  have hlen : (syncPass p range D st).Logger.length = st.Logger.length := by rw [hquiet]
  simp only [syncPass] at hlen ⊢
  have h0 := foldl_upsertEntry_Logger_le p (range.visit (desiredState D).entries) st
  have h1 := pruneStaleDevices_Logger_le p (desiredState D)
    (upsertDesiredDevices p range (desiredState D) st)
  have hu : (upsertDesiredDevices p range (desiredState D) st).Logger.length
      ≤ st.Logger.length := by
    rw [← hlen]; exact h1
  obtain ⟨hc1, hl1⟩ :=
    foldl_upsertEntry_quiet p content hp (range.visit (desiredState D).entries) st hu
  have hpr : (pruneStaleDevices p (desiredState D)
      (upsertDesiredDevices p range (desiredState D) st)).Logger.length
      ≤ (upsertDesiredDevices p range (desiredState D) st).Logger.length := by
    rw [hlen]; exact h0
  obtain ⟨hc2, _⟩ := pruneStaleDevices_quiet p content hp (desiredState D) _ hpr
  rw [hc2 k]
  rcases hd : (desiredState D).lookup k with _ | v
  · rfl
  · simp only [Option.isNone_some, Bool.false_eq_true, if_false]
    have hperm := range.perm (desiredState D).entries
    have hnd : (range.visit (desiredState D).entries).NodupKeys :=
      (List.perm_nodupKeys hperm).mpr (desiredState D).nodupKeys
    show content (List.foldl (upsertEntry p) st
      (range.visit (desiredState D).entries)).DeviceMap k = some v
    rw [hc1, foldl_update_some _ _ hnd]
    have hd' : (desiredState D).entries.dlookup k = some v := hd
    rw [List.perm_dlookup k hnd (desiredState D).nodupKeys hperm, hd']

/-- Claim C3 (convergence): for every list of devices `D`, every initial
state of a lawful device map and every order in which the pass ranges over the
desired mapping, a pass (`desiredState`, `upsertDesiredDevices`,
`pruneStaleDevices`) in which no `Upsert`, `Delete` or iteration fails, that
is, which logs no warning, leaves the map with a key set equal to the set of
interface indices of `D`, and for each such key a value equal to
`NewDeviceState` of the hardware address of the device of `D` with that index
(the last one in `D`, should `D` list the index more than once). -/
theorem syncPass_converges {σ : Type} (p : devicesMapSyncParams σ)
    (content : σ → Nat → Option DeviceState) (hp : LawfulMap p.DeviceMap content)
    (range : RangeOrder) (D : List Device) (st : SyncState σ)
    (hquiet : (syncPass p range D st).Logger = st.Logger) :
    (∀ k, (content (syncPass p range D st).DeviceMap k).isSome ↔
      ∃ d ∈ D, uint32 d.Index = k) ∧
    (∀ k v, content (syncPass p range D st).DeviceMap k = some v →
      ∃ d ∈ D, uint32 d.Index = k ∧ v = NewDeviceState d.HardwareAddr) ∧
    (∀ k, content (syncPass p range D st).DeviceMap k =
      (D.reverse.find? (fun d => decide (uint32 d.Index = k))).map
        (fun d => NewDeviceState d.HardwareAddr)) := by
  have hc := syncPass_content p content hp range D st hquiet
  refine ⟨?_, ?_, ?_⟩
  · intro k
    rw [hc k]
    exact desiredState_isSome D k
  · intro k v hv
    rw [hc k] at hv
    exact desiredState_lookup D k v hv
  · intro k
    rw [hc k]
    exact desiredState_lookup_last D k

/-- The second pass of the spec's scenario: the map holds indices 1 and 2, the
device table now lists index 1 and index 3 with a 3-byte address, and the
range of this pass visits index 1 before index 3. -/
theorem syncPass_converges_witness :
    (syncPass devicesMapParams RangeOrder.earliestFirst scenarioDevicesLater
        (scenarioAfterFirstPass RangeOrder.latestFirst)).Logger
      = (scenarioAfterFirstPass RangeOrder.latestFirst).Logger ∧
    ((∀ k, (devicesMap.content
          (syncPass devicesMapParams RangeOrder.earliestFirst scenarioDevicesLater
            (scenarioAfterFirstPass RangeOrder.latestFirst)).DeviceMap k).isSome ↔
        ∃ d ∈ scenarioDevicesLater, uint32 d.Index = k) ∧
    (∀ k v, devicesMap.content
        (syncPass devicesMapParams RangeOrder.earliestFirst scenarioDevicesLater
          (scenarioAfterFirstPass RangeOrder.latestFirst)).DeviceMap k = some v →
      ∃ d ∈ scenarioDevicesLater, uint32 d.Index = k ∧ v = NewDeviceState d.HardwareAddr) ∧
    (∀ k, devicesMap.content
        (syncPass devicesMapParams RangeOrder.earliestFirst scenarioDevicesLater
          (scenarioAfterFirstPass RangeOrder.latestFirst)).DeviceMap k =
      (scenarioDevicesLater.reverse.find? (fun d => decide (uint32 d.Index = k))).map
        (fun d => NewDeviceState d.HardwareAddr))) :=
  ⟨by decide,
    syncPass_converges devicesMapParams devicesMap.content devicesMap_lawful
      RangeOrder.earliestFirst scenarioDevicesLater
      (scenarioAfterFirstPass RangeOrder.latestFirst) (by decide)⟩

/-- The spec's scenario, evaluated in both orders of each range: after the
first pass the map holds indices 1 and 2 with their MACs and `L3` 0 and
nothing else; after the second it holds index 1 unchanged, no index 2, and
index 3 with a zeroed MAC and `L3` 1, and nothing else. -/
theorem scenario_evaluated :
    ∀ first ∈ [RangeOrder.latestFirst, RangeOrder.earliestFirst],
    ∀ second ∈ [RangeOrder.latestFirst, RangeOrder.earliestFirst],
      (scenarioAfterFirstPass first).Logger = [] ∧
      devicesMap.content (scenarioAfterFirstPass first).DeviceMap 1
        = some { DeviceState.zero with MAC := ⟨[0x00, 0x11, 0x22, 0x33, 0x44, 0x55], rfl⟩ } ∧
      devicesMap.content (scenarioAfterFirstPass first).DeviceMap 2
        = some { DeviceState.zero with MAC := ⟨[0xde, 0xad, 0xbe, 0xef, 0x00, 0x01], rfl⟩ } ∧
      (scenarioAfterFirstPass first).DeviceMap.entries.entries.length = 2 ∧
      (syncPass devicesMapParams second scenarioDevicesLater
        (scenarioAfterFirstPass first)).Logger = [] ∧
      devicesMap.content (syncPass devicesMapParams second scenarioDevicesLater
          (scenarioAfterFirstPass first)).DeviceMap 1
        = some { DeviceState.zero with MAC := ⟨[0x00, 0x11, 0x22, 0x33, 0x44, 0x55], rfl⟩ } ∧
      devicesMap.content (syncPass devicesMapParams second scenarioDevicesLater
          (scenarioAfterFirstPass first)).DeviceMap 2 = none ∧
      devicesMap.content (syncPass devicesMapParams second scenarioDevicesLater
          (scenarioAfterFirstPass first)).DeviceMap 3
        = some { DeviceState.zero with L3 := 1 } ∧
      (syncPass devicesMapParams second scenarioDevicesLater
        (scenarioAfterFirstPass first)).DeviceMap.entries.entries.length = 2 := by
  intro first hfirst second hsecond
  simp only [List.mem_cons, List.mem_singleton, List.not_mem_nil, or_false] at hfirst hsecond
  rcases hfirst with rfl | rfl <;> rcases hsecond with rfl | rfl <;> decide

/-! ### The journal of a recorded run -/

theorem recording_upsertEntry {σ : Type} (p : devicesMapSyncParams σ) (s : σ)
    (journal : List Call) (log : List Warning) (e : Sigma (fun _ : Nat => DeviceState)) :
    upsertEntry ⟨recording p.DeviceMap⟩ ⟨(s, journal), log⟩ e =
      ⟨((upsertEntry p ⟨s, log⟩ e).DeviceMap, journal ++ [Call.Upsert e.1 e.2]),
        (upsertEntry p ⟨s, log⟩ e).Logger⟩ := by
  simp only [upsertEntry, recording]
  rcases p.DeviceMap.Upsert s e.1 e.2 with ⟨s', _ | err⟩ <;> rfl

theorem recording_deleteEntry {σ : Type} (p : devicesMapSyncParams σ) (s : σ)
    (journal : List Call) (log : List Warning) (k : Nat) :
    deleteEntry ⟨recording p.DeviceMap⟩ ⟨(s, journal), log⟩ k =
      ⟨((deleteEntry p ⟨s, log⟩ k).DeviceMap, journal ++ [Call.Delete k]),
        (deleteEntry p ⟨s, log⟩ k).Logger⟩ := by
  simp only [deleteEntry, recording]
  rcases p.DeviceMap.Delete s k with ⟨s', _ | err⟩ <;> rfl

theorem recording_foldl_upsertEntry {σ : Type} (p : devicesMapSyncParams σ)
    (l : List (Sigma (fun _ : Nat => DeviceState))) :
    ∀ (s : σ) (journal : List Call) (log : List Warning),
      l.foldl (upsertEntry ⟨recording p.DeviceMap⟩) ⟨(s, journal), log⟩ =
        ⟨((l.foldl (upsertEntry p) ⟨s, log⟩).DeviceMap,
            journal ++ l.map (fun e => Call.Upsert e.1 e.2)),
          (l.foldl (upsertEntry p) ⟨s, log⟩).Logger⟩ := by
  induction l with
  | nil => intro s journal log; simp
  | cons e t ih =>
    intro s journal log
    simp only [List.foldl_cons, List.map_cons]
    rw [recording_upsertEntry, ih]
    simp

theorem recording_foldl_deleteEntry {σ : Type} (p : devicesMapSyncParams σ) (l : List Nat) :
    ∀ (s : σ) (journal : List Call) (log : List Warning),
      l.foldl (deleteEntry ⟨recording p.DeviceMap⟩) ⟨(s, journal), log⟩ =
        ⟨((l.foldl (deleteEntry p) ⟨s, log⟩).DeviceMap, journal ++ l.map Call.Delete),
          (l.foldl (deleteEntry p) ⟨s, log⟩).Logger⟩ := by
  induction l with
  | nil => intro s journal log; simp
  | cons e t ih =>
    intro s journal log
    simp only [List.foldl_cons, List.map_cons]
    rw [recording_deleteEntry, ih]
    simp

/-- The journal of a recorded `upsertDesiredDevices`; the recorder changes
neither the map nor the log. -/
theorem recording_upsertDesiredDevices {σ : Type} (p : devicesMapSyncParams σ)
    (range : RangeOrder) (desired : DesiredState) (s : σ) (journal : List Call)
    (log : List Warning) :
    upsertDesiredDevices ⟨recording p.DeviceMap⟩ range desired ⟨(s, journal), log⟩ =
      ⟨((upsertDesiredDevices p range desired ⟨s, log⟩).DeviceMap,
          journal ++ (range.visit desired.entries).map (fun e => Call.Upsert e.1 e.2)),
        (upsertDesiredDevices p range desired ⟨s, log⟩).Logger⟩ :=
  recording_foldl_upsertEntry p (range.visit desired.entries) s journal log

/-- The journal of a recorded `pruneStaleDevices`; the recorder changes
neither the map nor the log. -/
theorem recording_pruneStaleDevices {σ : Type} (p : devicesMapSyncParams σ)
    (desired : DesiredState) (s : σ) (journal : List Call) (log : List Warning) :
    pruneStaleDevices ⟨recording p.DeviceMap⟩ desired ⟨(s, journal), log⟩ =
      ⟨((pruneStaleDevices p desired ⟨s, log⟩).DeviceMap,
          journal ++ ((((p.DeviceMap.IterateWithCallback s).1.map
            (fun kv => kv.1.IfIndex)).filter
              (fun k => (desired.lookup k).isNone)).map Call.Delete)),
        (pruneStaleDevices p desired ⟨s, log⟩).Logger⟩ := by
  rcases hw : p.DeviceMap.IterateWithCallback s with ⟨delivered, _ | err⟩
  · have hw' : (recording p.DeviceMap).IterateWithCallback (s, journal) = (delivered, none) := hw
    rw [pruneStaleDevices_of_walk_ok ⟨recording p.DeviceMap⟩ desired ⟨(s, journal), log⟩
        delivered hw',
      pruneStaleDevices_of_walk_ok p desired ⟨s, log⟩ delivered hw]
    exact recording_foldl_deleteEntry p _ s journal log
  · have hw' : (recording p.DeviceMap).IterateWithCallback (s, journal)
        = (delivered, some err) := hw
    rw [pruneStaleDevices_of_walk_err ⟨recording p.DeviceMap⟩ desired ⟨(s, journal), log⟩
        delivered err hw',
      pruneStaleDevices_of_walk_err p desired ⟨s, log⟩ delivered err hw]
    exact recording_foldl_deleteEntry p _ s journal _

/-! ### Pruning -/

theorem mem_delivered_keys {σ : Type} (m : Map σ) (content : σ → Nat → Option DeviceState)
    (hp : LawfulMap m content) (s : σ) (hw : (m.IterateWithCallback s).2 = none) (k : Nat) :
    k ∈ (m.IterateWithCallback s).1.map (fun kv => kv.1.IfIndex) ↔ (content s k).isSome := by
  have hw' : m.IterateWithCallback s = ((m.IterateWithCallback s).1, none) := by
    rw [← hw]
  rw [List.mem_map, Option.isSome_iff_exists]
  constructor
  · rintro ⟨⟨key, v⟩, hmem, hk⟩
    simp only at hk
    subst hk
    exact ⟨v, (hp.iterate_ok s _ hw' key.IfIndex v).mp hmem⟩
  · rintro ⟨v, hv⟩
    exact ⟨({ IfIndex := k }, v), (hp.iterate_ok s _ hw' k v).mpr hv, rfl⟩

/-- Claim C4 (pruning): for every desired mapping and every state of a lawful
device map, when the iteration succeeds, the `Delete` calls `pruneStaleDevices`
makes are exactly the keys that are in the map and absent from the desired
mapping, one call each and no other write; so every stale entry has `Delete`
called on it and no entry whose interface index is in the desired mapping
has. -/
theorem pruneStaleDevices_deletes_stale {σ : Type} (p : devicesMapSyncParams σ)
    (content : σ → Nat → Option DeviceState) (hp : LawfulMap p.DeviceMap content)
    (desired : DesiredState) (s : σ) (log : List Warning)
    (hw : (p.DeviceMap.IterateWithCallback s).2 = none) :
    (∀ k, Call.Delete k ∈
        (pruneStaleDevices ⟨recording p.DeviceMap⟩ desired ⟨(s, []), log⟩).DeviceMap.2 ↔
      ((content s k).isSome ∧ (desired.lookup k).isNone)) ∧
    (pruneStaleDevices ⟨recording p.DeviceMap⟩ desired ⟨(s, []), log⟩).DeviceMap.2.Nodup ∧
    (∀ c ∈ (pruneStaleDevices ⟨recording p.DeviceMap⟩ desired ⟨(s, []), log⟩).DeviceMap.2,
      ∃ k, c = Call.Delete k) ∧
    (∀ k, (desired.lookup k).isSome → Call.Delete k ∉
      (pruneStaleDevices ⟨recording p.DeviceMap⟩ desired ⟨(s, []), log⟩).DeviceMap.2) := by
  have hj := recording_pruneStaleDevices p desired s [] log
  have hmem : ∀ k, Call.Delete k ∈
      (pruneStaleDevices ⟨recording p.DeviceMap⟩ desired ⟨(s, []), log⟩).DeviceMap.2 ↔
      ((content s k).isSome ∧ (desired.lookup k).isNone) := by
    intro k
    rw [hj]
    simp only [List.nil_append, List.mem_map, List.mem_filter, Call.Delete.injEq,
      exists_eq_right]
    rw [← mem_delivered_keys p.DeviceMap content hp s hw k, List.mem_map]
  refine ⟨hmem, ?_, ?_, ?_⟩
  · rw [hj]
    simp only [List.nil_append]
    have hw' : p.DeviceMap.IterateWithCallback s
        = ((p.DeviceMap.IterateWithCallback s).1, none) := by rw [← hw]
    have hnd := hp.iterate_nodup s _ hw'
    refine List.Nodup.map ?_ (List.Nodup.filter _ hnd)
    intro a b hab
    exact Call.Delete.inj hab
  · intro c hc
    rw [hj] at hc
    simp only [List.nil_append, List.mem_map] at hc
    obtain ⟨k, _, hk⟩ := hc
    exact ⟨k, hk.symm⟩
  · intro k hk hin
    have := ((hmem k).mp hin).2
    cases hd : desired.lookup k with
    | none => rw [hd] at hk; cases hk
    | some v => rw [hd] at this; cases this

/-- The second pass of the spec's scenario: the map holds indices 1 and 2,
the desired mapping holds indices 1 and 3. -/
theorem pruneStaleDevices_deletes_stale_witness :
    (devicesMapParams.DeviceMap.IterateWithCallback
      (scenarioAfterFirstPass RangeOrder.latestFirst).DeviceMap).2 = none ∧
    (pruneStaleDevices ⟨recording devicesMapParams.DeviceMap⟩
        (desiredState scenarioDevicesLater)
        ⟨((scenarioAfterFirstPass RangeOrder.latestFirst).DeviceMap, []), []⟩).DeviceMap.2
      = [Call.Delete 2] ∧
    (∀ k, Call.Delete k ∈
        (pruneStaleDevices ⟨recording devicesMapParams.DeviceMap⟩
          (desiredState scenarioDevicesLater)
          ⟨((scenarioAfterFirstPass RangeOrder.latestFirst).DeviceMap, []), []⟩).DeviceMap.2 ↔
      ((devicesMap.content (scenarioAfterFirstPass RangeOrder.latestFirst).DeviceMap k).isSome ∧
        ((desiredState scenarioDevicesLater).lookup k).isNone)) :=
  ⟨by decide, by decide,
    (pruneStaleDevices_deletes_stale devicesMapParams devicesMap.content devicesMap_lawful
      (desiredState scenarioDevicesLater)
      (scenarioAfterFirstPass RangeOrder.latestFirst).DeviceMap []
      (by decide)).1⟩

/-! ### Failures do not abort a pass -/

/-- Claim C5 (per-entry failure isolation): for every desired mapping, every
order of the range over it and every implementation of the device map,
whichever of its `Upsert` and `Delete` calls fail, `upsertDesiredDevices` calls
`Upsert` once for every desired entry and makes no other write, and
`pruneStaleDevices` calls `Delete` once for every delivery of a key the
desired mapping lacks and makes no other write. -/
theorem writes_survive_failures {σ : Type} (p : devicesMapSyncParams σ)
    (range : RangeOrder) (desired : DesiredState) (s : σ) (log : List Warning) :
    (upsertDesiredDevices ⟨recording p.DeviceMap⟩ range desired ⟨(s, []), log⟩).DeviceMap.2
      = (range.visit desired.entries).map (fun e => Call.Upsert e.1 e.2) ∧
    (upsertDesiredDevices ⟨recording p.DeviceMap⟩ range desired
      ⟨(s, []), log⟩).DeviceMap.2.Nodup ∧
    (∀ k v, Call.Upsert k v ∈
        (upsertDesiredDevices ⟨recording p.DeviceMap⟩ range desired
          ⟨(s, []), log⟩).DeviceMap.2 ↔
      desired.lookup k = some v) ∧
    (pruneStaleDevices ⟨recording p.DeviceMap⟩ desired ⟨(s, []), log⟩).DeviceMap.2
      = (((p.DeviceMap.IterateWithCallback s).1.map (fun kv => kv.1.IfIndex)).filter
          (fun k => (desired.lookup k).isNone)).map Call.Delete ∧
    (∀ k, (pruneStaleDevices ⟨recording p.DeviceMap⟩ desired
          ⟨(s, []), log⟩).DeviceMap.2.count (Call.Delete k)
      = if (desired.lookup k).isNone then
          ((p.DeviceMap.IterateWithCallback s).1.map (fun kv => kv.1.IfIndex)).count k
        else 0) := by
  have hu := recording_upsertDesiredDevices p range desired s [] log
  have hd := recording_pruneStaleDevices p desired s [] log
  have hperm := range.perm desired.entries
  have hinjU : Function.Injective
      (fun e : Sigma (fun _ : Nat => DeviceState) => Call.Upsert e.1 e.2) := by
    rintro ⟨a, b⟩ ⟨a', b'⟩ h
    simp only [Call.Upsert.injEq] at h
    obtain ⟨h1, h2⟩ := h
    subst h1 h2
    rfl
  have hinjD : Function.Injective Call.Delete := fun a b h => Call.Delete.inj h
  refine ⟨?_, ?_, ?_, ?_, ?_⟩
  · rw [hu]; simp
  · rw [hu]
    simp only [List.nil_append]
    exact List.Nodup.map hinjU (hperm.nodup_iff.mpr desired.nodupKeys.nodup)
  · intro k v
    rw [hu]
    simp only [List.nil_append, List.mem_map]
    rw [← Option.mem_def, AList.mem_lookup_iff]
    constructor
    · rintro ⟨⟨a, b⟩, hmem, heq⟩
      simp only [Call.Upsert.injEq] at heq
      obtain ⟨h1, h2⟩ := heq
      subst h1 h2
      exact hperm.mem_iff.mp hmem
    · intro hmem
      exact ⟨⟨k, v⟩, hperm.mem_iff.mpr hmem, rfl⟩
  · rw [hd]; simp
  · intro k
    rw [hd]
    simp only [List.nil_append]
    rw [List.count_map_of_injective _ _ hinjD]
    rcases hl : desired.lookup k with _ | v
    · simp only [Option.isNone_none, if_true]
      rw [List.count_filter]
      simp [hl]
    · simp only [Option.isNone_some, Bool.false_eq_true, if_false]
      rw [List.count_eq_zero]
      intro hmem
      have := (List.mem_filter.mp hmem).2
      simp [hl] at this

/-- The capacity boundary: a pass for the two devices of the scenario on a map
with room for one entry, in each of the two orders its range can take. Both
`Upsert` calls are made; the one made second fails and is logged, the entry
upserted first is in the map, and the pass goes on to prune. -/
theorem capacity_scenario_evaluated :
    ((upsertDesiredDevices ⟨recording devicesMapParams.DeviceMap⟩ RangeOrder.latestFirst
        (desiredState scenarioDevices) ⟨(tinyDevicesMap, []), []⟩).DeviceMap.2
      = [Call.Upsert 2 (NewDeviceState [0xde, 0xad, 0xbe, 0xef, 0x00, 0x01]),
         Call.Upsert 1 (NewDeviceState [0x00, 0x11, 0x22, 0x33, 0x44, 0x55])] ∧
    (syncPass devicesMapParams RangeOrder.latestFirst scenarioDevices
        ⟨tinyDevicesMap, []⟩).Logger
      = [⟨"Failed to upsert device map entry", MapWriteError, some 1⟩] ∧
    (syncPass devicesMapParams RangeOrder.latestFirst scenarioDevices
        ⟨tinyDevicesMap, []⟩).DeviceMap.entries.entries.map (fun e => e.1.IfIndex) = [2]) ∧
    ((upsertDesiredDevices ⟨recording devicesMapParams.DeviceMap⟩ RangeOrder.earliestFirst
        (desiredState scenarioDevices) ⟨(tinyDevicesMap, []), []⟩).DeviceMap.2
      = [Call.Upsert 1 (NewDeviceState [0x00, 0x11, 0x22, 0x33, 0x44, 0x55]),
         Call.Upsert 2 (NewDeviceState [0xde, 0xad, 0xbe, 0xef, 0x00, 0x01])] ∧
    (syncPass devicesMapParams RangeOrder.earliestFirst scenarioDevices
        ⟨tinyDevicesMap, []⟩).Logger
      = [⟨"Failed to upsert device map entry", MapWriteError, some 2⟩] ∧
    (syncPass devicesMapParams RangeOrder.earliestFirst scenarioDevices
        ⟨tinyDevicesMap, []⟩).DeviceMap.entries.entries.map (fun e => e.1.IfIndex) = [1]) := by
  decide

/-! ### The loop -/

theorem syncDevicesMap_continue {σ : Type} (p : devicesMapSyncParams σ) (r : Round)
    (rounds : List Round) (st : SyncState σ)
    (he : r.event = .watch ∨ r.event = .tick) (hl : r.limiterWait = none) :
    syncDevicesMap p (r :: rounds) st =
      syncDevicesMap p rounds (syncPass p r.range r.devices st) := by
  rcases he with he | he <;> simp [syncDevicesMap, he, hl]

theorem syncDevicesMap_done {σ : Type} (p : devicesMapSyncParams σ) (r : Round)
    (rounds : List Round) (st : SyncState σ) (c : Err) (he : r.event = .done c) :
    syncDevicesMap p (r :: rounds) st = (some c, syncPass p r.range r.devices st) := by
  simp [syncDevicesMap, he]

theorem syncDevicesMap_limiter {σ : Type} (p : devicesMapSyncParams σ) (r : Round)
    (rounds : List Round) (st : SyncState σ) (e : Err)
    (he : r.event = .watch ∨ r.event = .tick) (hl : r.limiterWait = some e) :
    syncDevicesMap p (r :: rounds) st = (some e, syncPass p r.range r.devices st) := by
  rcases he with he | he <;> simp [syncDevicesMap, he, hl]

theorem syncDevicesMap_returns_cause {σ : Type} (p : devicesMapSyncParams σ)
    (pre : List Round) :
    ∀ (r : Round) (post : List Round) (c : Err) (st : SyncState σ),
      (∀ x ∈ pre, (x.event = .watch ∨ x.event = .tick) ∧ x.limiterWait = none) →
      r.event = .done c → (syncDevicesMap p (pre ++ r :: post) st).1 = some c := by
  induction pre with
  | nil =>
    intro r post c st _ he
    rw [List.nil_append, syncDevicesMap_done p r post st c he]
  | cons x t ih =>
    intro r post c st hpre he
    obtain ⟨hx, hl⟩ := hpre x (List.mem_cons_self _ _)
    rw [List.cons_append, syncDevicesMap_continue p x _ st hx hl]
    exact ih r post c _ (fun y hy => hpre y (List.mem_cons_of_mem _ hy)) he

theorem syncDevicesMap_exit_cause {σ : Type} (p : devicesMapSyncParams σ)
    (rounds : List Round) :
    ∀ (st : SyncState σ) (e : Err), (syncDevicesMap p rounds st).1 = some e →
      ∃ pre r post, rounds = pre ++ r :: post ∧
        (∀ x ∈ pre, (x.event = .watch ∨ x.event = .tick) ∧ x.limiterWait = none) ∧
        (r.event = .done e ∨
          ((r.event = .watch ∨ r.event = .tick) ∧ r.limiterWait = some e)) := by
  induction rounds with
  | nil => intro st e h; simp [syncDevicesMap] at h
  | cons r t ih =>
    intro st e h
    have hev : (∃ c, r.event = .done c) ∨ (r.event = .watch ∨ r.event = .tick) := by
      cases r.event with
      | watch => exact Or.inr (Or.inl rfl)
      | tick => exact Or.inr (Or.inr rfl)
      | done c => exact Or.inl ⟨c, rfl⟩
    rcases hev with ⟨c, hc⟩ | hwt
    · rw [syncDevicesMap_done p r t st c hc] at h
      have hce : c = e := Option.some.inj h
      subst hce
      exact ⟨[], r, t, rfl, by simp, Or.inl hc⟩
    · rcases hl : r.limiterWait with _ | err
      · rw [syncDevicesMap_continue p r t st hwt hl] at h
        obtain ⟨pre, r', post, hsplit, hpre, hr'⟩ := ih _ e h
        refine ⟨r :: pre, r', post, by rw [hsplit]; rfl, ?_, hr'⟩
        intro x hx
        rcases List.mem_cons.mp hx with rfl | hx'
        · exact ⟨hwt, hl⟩
        · exact hpre x hx'
      · rw [syncDevicesMap_limiter p r t st err hwt hl] at h
        have hce : err = e := Option.some.inj h
        subst hce
        exact ⟨[], r, t, rfl, by simp, Or.inr ⟨hwt, hl⟩⟩

theorem syncDevicesMap_keeps_running {σ : Type} (p : devicesMapSyncParams σ)
    (rounds : List Round) :
    ∀ (st : SyncState σ),
      (∀ x ∈ rounds, (x.event = .watch ∨ x.event = .tick) ∧ x.limiterWait = none) →
      (syncDevicesMap p rounds st).1 = none := by
  induction rounds with
  | nil => intro st _; rfl
  | cons r t ih =>
    intro st h
    obtain ⟨hx, hl⟩ := h r (List.mem_cons_self _ _)
    rw [syncDevicesMap_continue p r t st hx hl]
    exact ih _ (fun y hy => h y (List.mem_cons_of_mem _ hy))

/-- Claim C8 (loop termination): for every implementation of the device map,
whatever its calls return, `syncDevicesMap` keeps iterating while the `select`
takes the watch or ticker case and the limiter's wait succeeds; when the
`select` takes the `ctx.Done()` case it returns `ctx.Err()`; and whenever it
returns, it does so at the first iteration in which the `select` took the
`ctx.Done()` case, returning `ctx.Err()`, or the limiter's wait returned an
error, returning that error. -/
theorem syncDevicesMap_termination {σ : Type} (p : devicesMapSyncParams σ) :
    (∀ (pre : List Round) (r : Round) (post : List Round) (c : Err) (st : SyncState σ),
      (∀ x ∈ pre, (x.event = .watch ∨ x.event = .tick) ∧ x.limiterWait = none) →
      r.event = .done c → (syncDevicesMap p (pre ++ r :: post) st).1 = some c) ∧
    (∀ (rounds : List Round) (st : SyncState σ),
      (∀ x ∈ rounds, (x.event = .watch ∨ x.event = .tick) ∧ x.limiterWait = none) →
      (syncDevicesMap p rounds st).1 = none) ∧
    (∀ (rounds : List Round) (st : SyncState σ) (e : Err),
      (syncDevicesMap p rounds st).1 = some e →
      ∃ pre r post, rounds = pre ++ r :: post ∧
        (∀ x ∈ pre, (x.event = .watch ∨ x.event = .tick) ∧ x.limiterWait = none) ∧
        (r.event = .done e ∨
          ((r.event = .watch ∨ r.event = .tick) ∧ r.limiterWait = some e))) :=
  ⟨fun pre r post c st => syncDevicesMap_returns_cause p pre r post c st,
    fun rounds st => syncDevicesMap_keeps_running p rounds st,
    fun rounds st e => syncDevicesMap_exit_cause p rounds st e⟩

/-- Three iterations over a map on which every call fails: the loop logs the
failures, goes on, and returns `context.Canceled` once the context is
cancelled. -/
theorem syncDevicesMap_termination_witness :
    (syncDevicesMap devicesMapParams scenarioRounds ⟨rejectingDevicesMap, []⟩).1
      = some "context canceled" ∧
    (syncDevicesMap devicesMapParams scenarioRounds ⟨rejectingDevicesMap, []⟩).2.Logger.length
      = 9 ∧
    (syncDevicesMap devicesMapParams (scenarioRounds.take 2) ⟨rejectingDevicesMap, []⟩).1
      = none :=
  ⟨(syncDevicesMap_termination devicesMapParams).1
      [{ devices := scenarioDevices, range := RangeOrder.latestFirst,
         event := .watch, limiterWait := none },
       { devices := scenarioDevicesLater, range := RangeOrder.earliestFirst,
         event := .tick, limiterWait := none }]
      { devices := scenarioDevicesLater, range := RangeOrder.latestFirst,
        event := .done "context canceled", limiterWait := none }
      [] "context canceled" ⟨rejectingDevicesMap, []⟩
      (by
        intro x hx
        simp only [List.mem_cons, List.mem_singleton, List.not_mem_nil, or_false] at hx
        rcases hx with rfl | rfl
        · exact ⟨Or.inl rfl, rfl⟩
        · exact ⟨Or.inr rfl, rfl⟩)
      rfl,
    by decide, by decide⟩

end linux

/-! ## `ObjectsEqual` -/

namespace helpers

/-- Claim C9: `ObjectsEqual a b` returns true exactly when `a` and `b` have the
same GroupVersionKind, Name and Namespace, and false with a nil error
otherwise; when it returns true, the error is nil if and only if the two
Generations are equal, hence non-nil when they differ. -/
theorem ObjectsEqual_spec (a b : Object) :
    ((ObjectsEqual a b).1 = true ↔
      (a.GroupVersionKind = b.GroupVersionKind ∧ a.Name = b.Name ∧
        a.Namespace = b.Namespace)) ∧
    ((ObjectsEqual a b).1 = false → (ObjectsEqual a b).2 = none) ∧
    ((ObjectsEqual a b).1 = true →
      ((ObjectsEqual a b).2 = none ↔ a.Generation = b.Generation)) ∧
    ((ObjectsEqual a b).1 = true → a.Generation ≠ b.Generation →
      (ObjectsEqual a b).2 = some errDifferentGenerations) := by
  unfold ObjectsEqual
  by_cases hs : a.GroupVersionKind = b.GroupVersionKind ∧ a.Name = b.Name ∧
      a.Namespace = b.Namespace
  · by_cases hg : a.Generation = b.Generation
    · simp [hs, hg]
    · simp [hs, hg]
  · simp [hs]

/-- Two fetches of one object across an update: same identity, generations 1
and 2. -/
theorem ObjectsEqual_spec_witness :
    (ObjectsEqual ⟨⟨"gateway.networking.k8s.io", "v1", "Gateway"⟩, "gw", "default", 1⟩
        ⟨⟨"gateway.networking.k8s.io", "v1", "Gateway"⟩, "gw", "default", 2⟩).1 = true ∧
    (ObjectsEqual ⟨⟨"gateway.networking.k8s.io", "v1", "Gateway"⟩, "gw", "default", 1⟩
        ⟨⟨"gateway.networking.k8s.io", "v1", "Gateway"⟩, "gw", "default", 2⟩).2
      = some errDifferentGenerations :=
  ⟨by decide,
    (ObjectsEqual_spec ⟨⟨"gateway.networking.k8s.io", "v1", "Gateway"⟩, "gw", "default", 1⟩
      ⟨⟨"gateway.networking.k8s.io", "v1", "Gateway"⟩, "gw", "default", 2⟩).2.2.2
      (by decide) (by decide)⟩

end helpers

/-! ## `CheckTargetIsExistingService` -/

namespace policychecks

/-- Whenever the first target ref whose name and namespace match has no
`SectionName`, the call panics on `*target.SectionName`. -/
theorem checkTargetRefs_nil_SectionName
    (IsServiceTargetRef : LocalPolicyTargetReferenceWithSectionName → Bool)
    (input : Input) (ancestorRef : ParentReference) (targetFullName : NamespacedName)
    (sectionName : String) (target : LocalPolicyTargetReferenceWithSectionName)
    (rest : List LocalPolicyTargetReferenceWithSectionName)
    (hname : target.Name = targetFullName.Name)
    (hns : input.Namespace = targetFullName.Namespace)
    (hnil : target.SectionName = none) :
    checkTargetRefs IsServiceTargetRef input ancestorRef targetFullName sectionName
      (target :: rest) = Outcome.panicked := by
  simp [checkTargetRefs, hname, hns, hnil]

/-- Claim C10, the call the claim describes: one target ref `svc` without a
`SectionName`, a policy in namespace `ns`, the Service `ns/svc` present. The
call panics instead of returning `(true, nil)`. -/
theorem CheckTargetIsExistingService_nil_SectionName_panics :
    CheckTargetIsExistingService (fun _ => true)
      { Namespace := "ns"
        TargetRefs := [{ Group := "", Kind := "Service", Name := "svc", SectionName := none }]
        Get := fun _ => GetResult.found ["https"] }
      ⟨"gw"⟩ ⟨"ns", "svc"⟩ "" = Outcome.panicked := by
  decide

end policychecks

end Cilium
